import Mathlib

/-!
# ego `task/ecron`: the cron component

A shallow embedding of `task/ecron/component.go`.

The component is a thin layer over collaborators it does not define: the
cron engine (`*cron.Cron`), the cadence parser (`config.parser`), the lock
client (`config.locker`), the logger and `fmt.Sprintf`.  The parser, the
lock client and `fmt.Sprintf` are taken as parameters; the engine's entry
table and its blocking loop call are modelled as far as the component
relies on them.  Every call the component makes to a collaborator is
written to one event trace, in program order of the goroutine making it.
-/

namespace Ecron

/-! ## Basic types -/

/-- An instant (`time.Time`). -/
abbrev Time := Int

/-- A `time.Duration`, in nanoseconds. -/
abbrev Duration := Int

/-- The type `cron.EntryID` (a Go `int`). -/
abbrev EntryID := Int

/-- A `context.Context` as the component builds it: `context.Background()`
is `none`, `context.WithTimeout(context.Background(), d)` is `some d`. -/
abbrev Context := Option Duration

/-- A Go `error` value (non-nil): either some error with its message, or the
`*fmt.wrapError` that `fmt.Errorf` builds for a `%w` verb. -/
inductive GoError where
  | errorString (s : String)
  | wrapError (msg : String) (err : GoError)
  deriving DecidableEq, Repr

/-- The method `Error()`. -/
def GoError.Error : GoError → String
  | .errorString s => s
  | .wrapError msg _ => msg

/-- The method `Unwrap()` as `errors.Unwrap` sees it. -/
def GoError.Unwrap : GoError → Option GoError
  | .errorString _ => none
  | .wrapError _ err => some err

/-- The call `fmt.Errorf(lead + "%w", err)` for a literal `lead` without
verbs: the message is `lead` followed by `err.Error()`, and the result
unwraps to `err`. -/
def Errorf (lead : String) (err : GoError) : GoError :=
  .wrapError (lead ++ err.Error) err

/-! ## The Immediate-Once decorator -/

/-- The struct `immediatelyScheduler`: the embedded `Schedule` (whatever
state the wrapped implementation has) and the `uint32` flag. -/
structure immediatelyScheduler (σ : Type) where
  Schedule : σ
  initOnce : Nat
  deriving DecidableEq, Repr

/-- The call `atomic.CompareAndSwapUint32(addr, old, new)` on the cell's
current value: the new value of the cell and whether the swap happened. -/
def CompareAndSwapUint32 (cell old new : Nat) : Nat × Bool :=
  if cell = old then (new % 2 ^ 32, true) else (cell, false)

/-- The method `(*immediatelyScheduler).Next`.  `next` is the `Next` method
of the wrapped `Schedule`, which may update the wrapped value. -/
def immediatelyScheduler.Next {σ : Type} (next : σ → Time → Time × σ)
    (is : immediatelyScheduler σ) (curr : Time) : Time × immediatelyScheduler σ :=
  match CompareAndSwapUint32 is.initOnce 0 1 with
  | (v, true) => (curr, { is with initOnce := v })
  | (v, false) =>
    let r := next is.Schedule curr
    (r.1, { Schedule := r.2, initOnce := v })

/-- A sequence of `Next` calls made one after another on a schedule with
state `S`: the results in order, and the final state. -/
def callsNext {S : Type} (next : S → Time → Time × S) : S → List Time → List Time × S
  | s, [] => ([], s)
  | s, t :: ts =>
    let r := next s t
    let rest := callsNext next r.2 ts
    (r.1 :: rest.1, rest.2)

/-- The literal `&immediatelyScheduler{Schedule: schedule}`. -/
def immediatelyScheduler.fresh {σ : Type} (schedule : σ) : immediatelyScheduler σ :=
  { Schedule := schedule, initOnce := 0 }

/-! ## Jobs, log records and the event trace -/

/-- The interface `NamedJob`, by what its two methods return. -/
structure NamedJob where
  Run : Option GoError
  Name : String
  deriving DecidableEq, Repr

/-- A handle on an `*elog.Component`. -/
abbrev Logger := Nat

/-- A `cron.JobWrapper` (a function value), by identity. -/
abbrev JobWrapper := Nat

/-- The struct `wrappedJob`, with the two fields `Schedule` fills in. -/
structure wrappedJob where
  NamedJob : NamedJob
  logger : Logger
  deriving DecidableEq, Repr

/-- A log field: `elog.String(key, val)` or `elog.Int(key, val)`. -/
inductive Field where
  | string (key val : String)
  | int (key : String) (val : Int)
  deriving DecidableEq, Repr

/-- The two goroutines `Start` launches: the outer `go func()` (the
acquisition loop) and the inner one (the renewal loop). -/
inductive Goroutine where
  | Start_func1
  | Start_func1_1
  deriving DecidableEq, Repr

/-- One effect of the component on a collaborator.  `Lock`, `Refresh` and
`Unlock` carry the arguments passed to the lock client and the error it
returned; `Run` is the call of `c.Cron.Run()` and `RunReturn` its return. -/
inductive Event where
  | Info (msg : String) (fields : List Field)
  | Name (job : NamedJob)
  | Lock (ctx : Context) (key : String) (ttl : Duration) (err : Option GoError)
  | Refresh (ctx : Context) (key : String) (ttl : Duration) (err : Option GoError)
  | Unlock (ctx : Context) (key : String) (err : Option GoError)
  | Sleep (d : Duration)
  | Schedule (id : EntryID)
  | Run
  | RunReturn
  | Stop
  | Go (g : Goroutine)
  deriving DecidableEq, Repr

/-- The resource path an event passes to the lock client, if it is a call
to the lock client. -/
def Event.key? : Event → Option String
  | .Lock _ key _ _ => some key
  | .Refresh _ key _ _ => some key
  | .Unlock _ key _ => some key
  | _ => none

/-- Is the event an acquire call? -/
def Event.isLock : Event → Bool
  | .Lock _ _ _ _ => true
  | _ => false

/-- Is the event a release call? -/
def Event.isUnlock : Event → Bool
  | .Unlock _ _ _ => true
  | _ => false

/-- Is the event a call to the lock client? -/
def Event.isLocker (e : Event) : Bool := e.key?.isSome

/-- Is the event a "mutex lock" log record? -/
def Event.isMutexLock : Event → Bool
  | .Info msg _ => msg == "mutex lock"
  | _ => false

/-! ## The scheduler engine (`*cron.Cron`) -/

/-- A `Schedule` value held by the engine: the schedule handed to the
component, as it is or inside the Immediate-Once decorator. -/
inductive ScheduleVal (σ : Type) where
  | plain (s : σ)
  | immediately (is : immediatelyScheduler σ)
  deriving DecidableEq, Repr

/-- The method `Next` of a schedule value held by the engine: the wrapped
schedule's own `Next`, or the decorator's. -/
def ScheduleVal.Next {σ : Type} (next : σ → Time → Time × σ) :
    ScheduleVal σ → Time → Time × ScheduleVal σ
  | .plain s, curr =>
    let r := next s curr
    (r.1, .plain r.2)
  | .immediately is, curr =>
    let r := is.Next next curr
    (r.1, .immediately r.2)

/-- The struct `cron.Entry` without the dispatch times; a nil interface
field is `none`.  `WrappedJob` is `chain.Then(job)`, kept as the pair. -/
structure Entry (σ : Type) where
  ID : EntryID
  Schedule : Option (ScheduleVal σ)
  WrappedJob : Option (List JobWrapper × wrappedJob)
  Job : Option wrappedJob
  deriving DecidableEq, Repr

/-- The zero value `Entry{}`. -/
def Entry.zero (σ : Type) : Entry σ :=
  { ID := 0, Schedule := none, WrappedJob := none, Job := none }

/-- The method `Entry.Valid`: the identifier is not zero. -/
def Entry.Valid {σ : Type} (e : Entry σ) : Bool := e.ID != 0

/-- Modelled from the spec: the Scheduler Engine (`cron.Cron` of
robfig/cron, a library outside the repository), as far as the component
uses it: the entry table, the job chain, the running flag and the
identifier counter. -/
structure Cron (σ : Type) where
  entries : List (Entry σ)
  chain : List JobWrapper
  running : Bool
  nextID : EntryID
  deriving DecidableEq, Repr

/-- Modelled from the spec: the engine constructor `cron.New` with the
chain option: an idle engine with no entries. -/
def Cron.New (σ : Type) (wrappers : List JobWrapper) : Cron σ :=
  { entries := [], chain := wrappers, running := false, nextID := 0 }

/-- Modelled from the spec: the engine's Register (`(*cron.Cron).Schedule`):
always succeeds and assigns the next identifier (never reused; the library
counts up from 1).  On an engine that is not running the entry goes into
the table as it is.  On a running engine it is handed to the loop, which
computes its next-fire time at once, by the call `Schedule.Next(now)`, and
then adds it: the table holds the entry with its schedule in the state that
call leaves it in (the entry is kept without the dispatch times).  `next`
is the `Next` method of the schedules handed to the component and `now` the
loop's clock reading. -/
def Cron.Schedule {σ : Type} (next : σ → Time → Time × σ) (now : Time) (c : Cron σ)
    (schedule : ScheduleVal σ) (cmd : wrappedJob) : EntryID × Cron σ :=
  let nextID := c.nextID + 1
  let entry : Entry σ :=
    { ID := nextID, Schedule := some schedule, WrappedJob := some (c.chain, cmd), Job := some cmd }
  if !c.running then
    (entry.ID, { c with nextID := nextID, entries := c.entries ++ [entry] })
  else
    let r := schedule.Next next now
    (entry.ID,
      { c with nextID := nextID, entries := c.entries ++ [{ entry with Schedule := some r.2 }] })

/-- Modelled from the spec: the snapshot of the entry table
(`(*cron.Cron).Entries`). -/
def Cron.Entries {σ : Type} (c : Cron σ) : List (Entry σ) := c.entries

/-- Modelled from the spec: the engine's Lookup (`(*cron.Cron).Entry`): the
entry with the identifier, or the zero entry when there is none. -/
def Cron.Entry {σ : Type} (c : Cron σ) (id : EntryID) : Entry σ :=
  match c.Entries.find? (fun e => decide (id = e.ID)) with
  | some e => e
  | none => Entry.zero σ

/-- Modelled from the spec: the engine's loop call (`(*cron.Cron).Run`): a
no-op that returns at once if the engine is already running; otherwise it
runs the wait/dispatch loop in the calling goroutine and returns only when
the loop exits, which takes a `Stop` from another goroutine.  `exits` says
whether that ever happens.  The result is whether the call returns. -/
def Cron.Run {σ : Type} (c : Cron σ) (exits : Bool) : Bool × Cron σ :=
  if c.running then (true, c)
  else if exits then (true, { c with running := false })
  else (false, { c with running := true })

/-- Modelled from the spec: the engine's Stop (`(*cron.Cron).Stop`): signals
a running loop to exit and clears the running flag; nothing to do on an
engine that is not running. -/
def Cron.Stop {σ : Type} (c : Cron σ) : Cron σ :=
  if c.running then { c with running := false } else c

/-! ## Configuration and the component -/

/-- The cadence parser `config.parser` (a `cron.Parser`): a parameter. -/
structure Parser (σ : Type) where
  Parse : String → Except GoError σ

/-- The lock client `config.locker`: a parameter.  Each method takes the
client's state and the call's arguments and gives the returned error (`none`
for nil) and the client's next state. -/
structure Locker (L : Type) where
  Lock : L → Context → String → Duration → Option GoError × L
  Unlock : L → Context → String → Option GoError × L
  Refresh : L → Context → String → Duration → Option GoError × L

/-- The fields of `Config` that component.go reads. -/
structure Config (σ L : Type) where
  WaitLockTime : Duration
  LockTTL : Duration
  RefreshTTL : Duration
  WaitUnlockTime : Duration
  WorkerLockDir : String
  DistributedTask : Bool
  ImmediatelyRun : Bool
  wrappers : List JobWrapper
  parser : Parser σ
  locker : Locker L

/-- A Go `map[string]EntryID`; the nil map reads like the empty one. -/
abbrev NameIndex := List (String × EntryID)

/-- The index expression `m[k]`: the zero value when the key is absent. -/
def NameIndex.index (m : NameIndex) (k : String) : EntryID :=
  (List.lookup k m).getD 0

/-- The struct `Component`; `Cron` is the state of the embedded engine. -/
structure Component (σ L : Type) where
  name : String
  config : Config σ L
  Cron : Cron σ
  entries : NameIndex
  logger : Logger

/-- The component together with what its calls act on: the lock client's
state and the trace of effects so far. -/
structure World (σ L : Type) where
  c : Component σ L
  lockerState : L
  trace : List Event

/-- Append one event to the trace. -/
def World.emit {σ L : Type} (w : World σ L) (e : Event) : World σ L :=
  { w with trace := w.trace ++ [e] }

/-- How a call ends: it returns a value, it stays blocked inside the
engine's loop for ever, or the model's loop bound ran out first. -/
inductive Outcome (α : Type) where
  | returned (a : α)
  | blocked
  | outOfFuel
  deriving DecidableEq, Repr

/-- The function `newComponent`; the `entries` map is left nil. -/
def newComponent {σ L : Type} (name : String) (config : Config σ L) (logger : Logger) :
    Component σ L :=
  { config := config
    Cron := Cron.New σ config.wrappers
    name := name
    logger := logger
    entries := [] }

/-- The method `Component.Schedule`; `next` and `now` are as in
`Cron.Schedule`. -/
def Component.Schedule {σ L : Type} (next : σ → Time → Time × σ) (now : Time) (schedule : σ)
    (job : NamedJob) (w : World σ L) : EntryID × World σ L :=
  let schedule : ScheduleVal σ :=
    if w.c.config.ImmediatelyRun then
      .immediately { Schedule := schedule, initOnce := 0 }
    else .plain schedule
  let innnerJob : wrappedJob := { NamedJob := job, logger := w.c.logger }
  let w := w.emit (.Name job)
  let w := w.emit (.Info "add job" [.string "name" job.Name])
  let r := w.c.Cron.Schedule next now schedule innnerJob
  (r.1, ({ w with c := { w.c with Cron := r.2 } } : World σ L).emit (.Schedule r.1))

/-- The method `Component.GetEntryByName`. -/
def Component.GetEntryByName {σ L : Type} (name : String) (w : World σ L) : Entry σ :=
  w.c.Cron.Entry (w.c.entries.index name)

/-- The method `Component.AddJob`: the identifier, the error (`none` for
nil) and the world after the call; `next` and `now` are as in
`Cron.Schedule`. -/
def Component.AddJob {σ L : Type} (next : σ → Time → Time × σ) (now : Time) (spec : String)
    (cmd : NamedJob) (w : World σ L) : (EntryID × Option GoError) × World σ L :=
  match w.c.config.parser.Parse spec with
  | .error err => ((0, some err), w)
  | .ok schedule =>
    let r := Component.Schedule next now schedule cmd w
    ((r.1, none), r.2)

/-- The call `c.Cron.Run()` made by the current goroutine: whether it
returns, and the world when it does (or where it stays blocked). -/
def World.Run {σ L : Type} (exits : Bool) (w : World σ L) : Bool × World σ L :=
  let w := w.emit .Run
  let r := w.c.Cron.Run exits
  let w : World σ L := { w with c := { w.c with Cron := r.2 } }
  if r.1 then (true, w.emit .RunReturn) else (false, w)

/-- The inner goroutine of `Start` (the renewal loop `for { Refresh; Sleep }`),
which never returns: the world after its first `n` rounds. -/
def Component.Start_func1_1 {σ L : Type} (Sprintf : String → String → String) :
    Nat → World σ L → World σ L
  | 0, w => w
  | n + 1, w =>
    let key := Sprintf w.c.config.WorkerLockDir w.c.name
    let r := w.c.config.locker.Refresh w.lockerState none key w.c.config.RefreshTTL
    let w := ({ w with lockerState := r.2 } : World σ L).emit
      (.Refresh none key w.c.config.RefreshTTL r.1)
    let w := w.emit (.Sleep w.c.config.RefreshTTL)
    Component.Start_func1_1 Sprintf n w

/-- The outer goroutine of `Start` (the acquisition loop).  `fuel` bounds
the number of rounds of the `for` loop; `exits` is as in `Cron.Run`. -/
def Component.Start_func1 {σ L : Type} (Sprintf : String → String → String) (exits : Bool) :
    Nat → World σ L → Outcome Unit × World σ L
  | 0, w => (.outOfFuel, w)
  | fuel + 1, w =>
    let ctx : Context := some w.c.config.WaitLockTime
    let key := Sprintf w.c.config.WorkerLockDir w.c.name
    let r := w.c.config.locker.Lock w.lockerState ctx key w.c.config.LockTTL
    let w := ({ w with lockerState := r.2 } : World σ L).emit
      (.Lock ctx key w.c.config.LockTTL r.1)
    match r.1 with
    | some err =>
      Component.Start_func1 Sprintf exits fuel
        (w.emit (.Info "mutex lock" [.string "err" err.Error]))
    | none =>
      let w := w.emit
        (.Info "add cron" [.int "number of scheduled jobs" w.c.Cron.Entries.length])
      match w.Run exits with
      | (false, w) => (.blocked, w)
      | (true, w) => (.returned (), w.emit (.Go .Start_func1_1))

/-- The method `Component.Start`. -/
def Component.Start {σ L : Type} (exits : Bool) (w : World σ L) :
    Outcome (Option GoError) × World σ L :=
  if w.c.config.DistributedTask then
    (.returned none, w.emit (.Go .Start_func1))
  else
    let w := w.emit
      (.Info "add cron" [.int "number of scheduled jobs" w.c.Cron.Entries.length])
    match w.Run exits with
    | (false, w) => (.blocked, w)
    | (true, w) => (.returned none, w)

/-- The method `Component.Stop`. -/
def Component.Stop {σ L : Type} (Sprintf : String → String → String) (w : World σ L) :
    Option GoError × World σ L :=
  let w := ({ w with c := { w.c with Cron := w.c.Cron.Stop } } : World σ L).emit .Stop
  if w.c.config.DistributedTask then
    let ctx : Context := some w.c.config.WaitUnlockTime
    let key := Sprintf w.c.config.WorkerLockDir w.c.name
    let r := w.c.config.locker.Unlock w.lockerState ctx key
    let w := ({ w with lockerState := r.2 } : World σ L).emit (.Unlock ctx key r.1)
    match r.1 with
    | some err =>
      (some (Errorf "cron stop err: " err),
        w.emit (.Info "mutex unlock" [.string "err" err.Error]))
    | none => (none, w)
  else (none, w)

/-! ## Observations on traces and on the lock client -/

/-- The lock client, starting in state `l`, fails the next `errs.length`
`Lock` calls made with these arguments, returning the errors `errs` in
order, and succeeds on the call after them. -/
def Locker.failsThenSucceeds {L : Type} (lk : Locker L) (ctx : Context) (key : String)
    (ttl : Duration) : L → List GoError → Prop
  | l, [] => (lk.Lock l ctx key ttl).1 = none
  | l, e :: es =>
    (lk.Lock l ctx key ttl).1 = some e ∧
      Locker.failsThenSucceeds lk ctx key ttl (lk.Lock l ctx key ttl).2 es

/-- The events of the failed rounds of the acquisition loop: for each error
the `Lock` call that returned it, then its "mutex lock" log record. -/
def failedAttempts (ctx : Context) (key : String) (ttl : Duration) : List GoError → List Event
  | [] => []
  | e :: es =>
    .Lock ctx key ttl (some e) :: .Info "mutex lock" [.string "err" e.Error] ::
      failedAttempts ctx key ttl es

/-- The events added to the trace between the world `w` and a later world
`w1`. -/
def World.since {σ L : Type} (w w1 : World σ L) : List Event :=
  w1.trace.drop w.trace.length

/-- Every call to the lock client among the events passes the path `p`. -/
def keysAre (p : String) (evs : List Event) : Prop :=
  ∀ e ∈ evs, ∀ q, e.key? = some q → q = p

/-! ## Sample inputs -/

/-- A sample parser: "@every 1s" parses to the schedule `1000000000` (a
fixed delay in nanoseconds); every other expression is rejected. -/
def sampleParser : Parser Int :=
  { Parse := fun spec =>
      if spec = "@every 1s" then .ok 1000000000 else .error (.errorString "bad cadence") }

/-- A sample `Next` for the schedules of `sampleParser`: the delay after
`curr`; the schedule value is not changed. -/
def sampleNext (s : Int) (curr : Time) : Time × Int := (curr + s, s)

/-- A sample lock client.  Its state counts the `Lock` calls made so far;
`Lock` fails on the first `failures` calls and succeeds afterwards, `Unlock`
returns `unlockErr`, `Refresh` succeeds. -/
def sampleLocker (failures : Nat) (unlockErr : Option GoError) : Locker Nat :=
  { Lock := fun l _ _ _ =>
      (if l < failures then some (.errorString "lock is held") else none, l + 1)
    Unlock := fun l _ _ => (unlockErr, l)
    Refresh := fun l _ _ _ => (none, l) }

/-- Replace each `%s` in the format by the operand. -/
def substVerb (a : List Char) : List Char → List Char
  | '%' :: 's' :: rest => a ++ substVerb a rest
  | ch :: rest => ch :: substVerb a rest
  | [] => []

/-- A sample `fmt.Sprintf(format, a)` for one string operand. -/
def sampleSprintf (format a : String) : String :=
  String.mk (substVerb a.data format.data)

/-- A sample configuration. -/
def sampleConfig (distributed immediately : Bool) (failures : Nat)
    (unlockErr : Option GoError) : Config Int Nat :=
  { WaitLockTime := 4000000000
    LockTTL := 16000000000
    RefreshTTL := 8000000000
    WaitUnlockTime := 1000000000
    WorkerLockDir := "/ecron/lock/%s"
    DistributedTask := distributed
    ImmediatelyRun := immediately
    wrappers := []
    parser := sampleParser
    locker := sampleLocker failures unlockErr }

/-- A freshly built sample component named "report", with a lock client
that has seen no call and an empty trace. -/
def sampleWorld (distributed immediately : Bool) (failures : Nat)
    (unlockErr : Option GoError) : World Int Nat :=
  { c := newComponent "report" (sampleConfig distributed immediately failures unlockErr) 7
    lockerState := 0
    trace := [] }

/-- The sample component after `Start` outside distributed mode, while the
engine's loop runs (the caller of `Start` is still inside the loop call). -/
def sampleRunningWorld (immediately : Bool) : World Int Nat :=
  (Component.Start false (sampleWorld false immediately 0 none)).2

/-- A sample clock reading. -/
def sampleNow : Time := 1700000000000000000

/-- A sample job. -/
def sampleJob : NamedJob := { Run := none, Name := "daily" }

/-! ## Theorems -/

/-- Calls on a decorator that has already fired go to the wrapped schedule,
in order, and the flag stays set. -/
theorem callsNext_fired {σ : Type} (next : σ → Time → Time × σ) (Ts : List Time) :
    ∀ s : σ, callsNext (immediatelyScheduler.Next next) { Schedule := s, initOnce := 1 } Ts =
      ((callsNext next s Ts).1, { Schedule := (callsNext next s Ts).2, initOnce := 1 }) := by
  induction Ts with
  | nil => intro s; rfl
  | cons t ts ih =>
    intro s
    simp [callsNext, immediatelyScheduler.Next, CompareAndSwapUint32, ih]

/-- C1: on a freshly built decorator around `s`, the first `Next(T1)` returns
`T1` and leaves the wrapped schedule untouched (it is not consulted), and the
calls after it return what the wrapped schedule returns for `T2, ..., Tn`
asked in that order; the wrapped schedule ends in the state those calls
alone leave it in. -/
theorem immediatelyScheduler_Next_sequence {σ : Type} (next : σ → Time → Time × σ) (s : σ)
    (T1 : Time) (Ts : List Time) :
    immediatelyScheduler.Next next (immediatelyScheduler.fresh s) T1 =
        (T1, { Schedule := s, initOnce := 1 }) ∧
      callsNext (immediatelyScheduler.Next next) (immediatelyScheduler.fresh s) (T1 :: Ts) =
        (T1 :: (callsNext next s Ts).1,
          { Schedule := (callsNext next s Ts).2, initOnce := 1 }) := by
  have h1 : immediatelyScheduler.Next next (immediatelyScheduler.fresh s) T1 =
      (T1, { Schedule := s, initOnce := 1 }) := by
    simp [immediatelyScheduler.Next, immediatelyScheduler.fresh, CompareAndSwapUint32]
  refine ⟨h1, ?_⟩
  simp only [callsNext, h1, callsNext_fired]

/-- C2: when the parser rejects the expression, `AddJob` returns identifier
0 with the parser's error and leaves the world as it was: the engine's entry
table, the name index and the trace (no `Name`, no log record, no call to
the engine) are unchanged. -/
theorem AddJob_parse_error {σ L : Type} (next : σ → Time → Time × σ) (now : Time)
    (w : World σ L) (spec : String) (cmd : NamedJob)
    (err : GoError) (h : w.c.config.parser.Parse spec = .error err) :
    Component.AddJob next now spec cmd w = ((0, some err), w) := by
  simp [Component.AddJob, h]

/-- C2, at a sample input. -/
theorem AddJob_parse_error_witness :
    (sampleWorld false true 0 none).c.config.parser.Parse "every second" =
        .error (.errorString "bad cadence") ∧
      Component.AddJob sampleNext sampleNow "every second" sampleJob
          (sampleWorld false true 0 none) =
        ((0, some (.errorString "bad cadence")), sampleWorld false true 0 none) :=
  ⟨rfl, AddJob_parse_error _ _ _ _ _ _ rfl⟩

/-- Events appended to a trace are the events since. -/
theorem since_of_append {σ L : Type} (w w1 : World σ L) (evs : List Event)
    (h : w1.trace = w.trace ++ evs) : w.since w1 = evs := by
  simp [World.since, h]

/-- C3: the error `Stop` returns is nil outside distributed mode, and in
distributed mode it is nil when `Unlock` returns nil and otherwise the
`Unlock` error wrapped by `fmt.Errorf("cron stop err: %w", err)`; so it is
non-nil exactly when the component is distributed and `Unlock` fails, and
then unwraps to the lock client's error, with the message led by
"cron stop err: ". -/
theorem Stop_error {σ L : Type} (Sprintf : String → String → String) (w : World σ L) :
    let released := (w.c.config.locker.Unlock w.lockerState (some w.c.config.WaitUnlockTime)
      (Sprintf w.c.config.WorkerLockDir w.c.name)).1
    (Component.Stop Sprintf w).1 =
        (if w.c.config.DistributedTask then released.map (Errorf "cron stop err: ") else none) ∧
      ((Component.Stop Sprintf w).1 ≠ none ↔
        (w.c.config.DistributedTask = true ∧ released ≠ none)) ∧
      ∀ err : GoError, (Errorf "cron stop err: " err).Unwrap = some err ∧
        (Errorf "cron stop err: " err).Error = "cron stop err: " ++ err.Error := by
  intro released
  have hrel : released = (w.c.config.locker.Unlock w.lockerState
      (some w.c.config.WaitUnlockTime) (Sprintf w.c.config.WorkerLockDir w.c.name)).1 := rfl
  have key : (Component.Stop Sprintf w).1 =
      (if w.c.config.DistributedTask then released.map (Errorf "cron stop err: ") else none) := by
    rw [hrel]
    unfold Component.Stop
    by_cases hd : w.c.config.DistributedTask = true
    · simp only [World.emit, hd, if_true]
      split <;> simp_all
    · simp [World.emit, hd]
  refine ⟨key, ?_, fun err => ⟨rfl, rfl⟩⟩
  rw [key]
  by_cases hd : w.c.config.DistributedTask = true
  · cases hr : released <;> simp [hd]
  · simp [hd]

/-- What `Stop` appends to the trace. -/
theorem Stop_appends {σ L : Type} (Sprintf : String → String → String) (w : World σ L) :
    (Component.Stop Sprintf w).2.trace = w.trace ++
      (if w.c.config.DistributedTask then
          Event.Stop :: Event.Unlock (some w.c.config.WaitUnlockTime)
              (Sprintf w.c.config.WorkerLockDir w.c.name)
              (w.c.config.locker.Unlock w.lockerState (some w.c.config.WaitUnlockTime)
                (Sprintf w.c.config.WorkerLockDir w.c.name)).1 ::
            (match (w.c.config.locker.Unlock w.lockerState (some w.c.config.WaitUnlockTime)
                (Sprintf w.c.config.WorkerLockDir w.c.name)).1 with
              | some err => [Event.Info "mutex unlock" [.string "err" err.Error]]
              | none => [])
        else [Event.Stop]) := by
  unfold Component.Stop
  by_cases hd : w.c.config.DistributedTask = true
  · simp only [World.emit, hd, if_true]
    cases hr : (w.c.config.locker.Unlock w.lockerState (some w.c.config.WaitUnlockTime)
      (Sprintf w.c.config.WorkerLockDir w.c.name)).1 <;>
      simp [hr]
  · simp [World.emit, hd]

/-- C10: `Stop` adds to the trace, in this order: the engine stop request;
in distributed mode one `Unlock` call (with the release timeout and the lock
path), whatever the state of the lock; and, if that call failed, the
"mutex unlock" log record.  So the stop request precedes the single release
call, and outside distributed mode no call reaches the lock client. -/
theorem Stop_trace {σ L : Type} (Sprintf : String → String → String) (w : World σ L) :
    let ctx : Context := some w.c.config.WaitUnlockTime
    let key := Sprintf w.c.config.WorkerLockDir w.c.name
    let released := (w.c.config.locker.Unlock w.lockerState ctx key).1
    let evs := w.since (Component.Stop Sprintf w).2
    (Component.Stop Sprintf w).2.trace = w.trace ++ evs ∧
      evs = (if w.c.config.DistributedTask then
          Event.Stop :: Event.Unlock ctx key released ::
            (match released with
              | some err => [Event.Info "mutex unlock" [.string "err" err.Error]]
              | none => [])
        else [Event.Stop]) ∧
      evs.countP Event.isLocker = (if w.c.config.DistributedTask then 1 else 0) ∧
      evs.countP Event.isUnlock = (if w.c.config.DistributedTask then 1 else 0) := by
  intro ctx key released evs
  have htr := Stop_appends Sprintf w
  have hevs : evs = _ := since_of_append w _ _ htr
  refine ⟨by rw [hevs]; exact htr, hevs, ?_, ?_⟩
  · rw [hevs]
    by_cases hd : w.c.config.DistributedTask = true
    · cases hr : (w.c.config.locker.Unlock w.lockerState (some w.c.config.WaitUnlockTime)
        (Sprintf w.c.config.WorkerLockDir w.c.name)).1 <;>
        simp [hd, hr, List.countP_cons, Event.isLocker, Event.key?]
    · simp [hd, List.countP_cons, Event.isLocker, Event.key?]
  · rw [hevs]
    by_cases hd : w.c.config.DistributedTask = true
    · cases hr : (w.c.config.locker.Unlock w.lockerState (some w.c.config.WaitUnlockTime)
        (Sprintf w.c.config.WorkerLockDir w.c.name)).1 <;>
        simp [hd, hr, List.countP_cons, Event.isUnlock]
    · simp [hd, List.countP_cons, Event.isUnlock]

/-- C9 as stated fails on a running engine: with `ImmediatelyRun` set,
`AddJob` on a component whose engine loop is running leaves in the table an
entry whose decorator has already fired (flag 1), not a fresh one: the loop
asked it for the next-fire time when it took the entry. -/
theorem AddJob_running_decorator_fired :
    (Component.AddJob sampleNext sampleNow "@every 1s" sampleJob
        (sampleRunningWorld true)).1 = (1, none) ∧
      (Component.AddJob sampleNext sampleNow "@every 1s" sampleJob
          (sampleRunningWorld true)).2.c.Cron.Entries =
        [{ ID := 1
           Schedule := some (ScheduleVal.immediately { Schedule := 1000000000, initOnce := 1 })
           WrappedJob := some ([], { NamedJob := sampleJob, logger := 7 })
           Job := some { NamedJob := sampleJob, logger := 7 } }] ∧
      (Component.AddJob sampleNext sampleNow "@every 1s" sampleJob
          (sampleRunningWorld true)).2.c.Cron.Entries ≠
        [{ ID := 1
           Schedule := some (ScheduleVal.immediately (immediatelyScheduler.fresh 1000000000))
           WrappedJob := some ([], { NamedJob := sampleJob, logger := 7 })
           Job := some { NamedJob := sampleJob, logger := 7 } }] := by
  refine ⟨?_, ?_, ?_⟩ <;> decide

/-- C9, amended: when the expression parses to `s`, `AddJob` returns the
identifier the engine assigns with a nil error, and the engine's table is
the old one followed by exactly one entry, carrying that identifier; its job
is the execution wrapper around the caller's job; its schedule is the
decorator around `s` if `ImmediatelyRun` is set and `s` itself, undecorated,
if not.  On an engine that is not running the decorator is stored fresh
(flag 0) and `s` as it is; on a running engine the loop has asked the
schedule for its next-fire time once, so the decorator is stored fired
(flag 1, `s` inside it not consulted) and an undecorated `s` in the state
its own `Next(now)` leaves it in.  The engine is called once, after the
job's name was asked and "add job" was logged; the name index is not
written. -/
theorem AddJob_registers {σ L : Type} (next : σ → Time → Time × σ) (now : Time)
    (w : World σ L) (spec : String) (cmd : NamedJob) (s : σ)
    (h : w.c.config.parser.Parse spec = .ok s) :
    let r := Component.AddJob next now spec cmd w
    let id := w.c.Cron.nextID + 1
    let job : wrappedJob := { NamedJob := cmd, logger := w.c.logger }
    r.1 = (id, none) ∧
      r.2.c.Cron.Entries = w.c.Cron.Entries ++
        [{ ID := id
           Schedule := some (if w.c.config.ImmediatelyRun then
               ScheduleVal.immediately
                 { Schedule := s, initOnce := if w.c.Cron.running then 1 else 0 }
             else ScheduleVal.plain (if w.c.Cron.running then (next s now).2 else s))
           WrappedJob := some (w.c.Cron.chain, job)
           Job := some job }] ∧
      w.since r.2 = [Event.Name cmd, Event.Info "add job" [.string "name" cmd.Name],
        Event.Schedule id] ∧
      r.2.c.entries = w.c.entries := by
  intro r id job
  have hr : r = Component.AddJob next now spec cmd w := rfl
  simp only [Component.AddJob, h, Component.Schedule, Cron.Schedule, World.emit] at hr
  refine ⟨?_, ?_, ?_, ?_⟩
  · rw [hr]
    cases hrun : w.c.Cron.running <;> simp [id]
  · rw [hr]
    cases hrun : w.c.Cron.running <;> cases hi : w.c.config.ImmediatelyRun <;>
      simp [Cron.Entries, ScheduleVal.Next, immediatelyScheduler.Next, CompareAndSwapUint32,
        id, job]
  · apply since_of_append
    rw [hr]
    cases hrun : w.c.Cron.running <;> simp [id]
  · rw [hr]

/-- C9 amended, at a sample input: the first job of a fresh component (engine
not running) with `ImmediatelyRun` set gets identifier 1 and a fresh
decorator. -/
theorem AddJob_registers_witness :
    (Component.AddJob sampleNext sampleNow "@every 1s" sampleJob
        (sampleWorld false true 0 none)).1 = (1, none) ∧
      (Component.AddJob sampleNext sampleNow "@every 1s" sampleJob
          (sampleWorld false true 0 none)).2.c.Cron.Entries =
        [{ ID := 1
           Schedule := some (ScheduleVal.immediately { Schedule := 1000000000, initOnce := 0 })
           WrappedJob := some ([], { NamedJob := sampleJob, logger := 7 })
           Job := some { NamedJob := sampleJob, logger := 7 } }] :=
  have h := AddJob_registers sampleNext sampleNow (sampleWorld false true 0 none) "@every 1s"
    sampleJob 1000000000 rfl
  ⟨h.1, h.2.1⟩

/-- The failed rounds contain one `Lock` call per error. -/
theorem failedAttempts_countP_isLock (ctx : Context) (key : String) (ttl : Duration)
    (errs : List GoError) :
    (failedAttempts ctx key ttl errs).countP Event.isLock = errs.length := by
  induction errs with
  | nil => rfl
  | cons e es ih => simp [failedAttempts, List.countP_cons, Event.isLock, ih]

/-- The failed rounds contain one "mutex lock" record per error. -/
theorem failedAttempts_countP_isMutexLock (ctx : Context) (key : String) (ttl : Duration)
    (errs : List GoError) :
    (failedAttempts ctx key ttl errs).countP Event.isMutexLock = errs.length := by
  induction errs with
  | nil => rfl
  | cons e es ih => simp [failedAttempts, List.countP_cons, Event.isMutexLock, ih]

/-- The failed rounds contain no call of the engine's loop. -/
theorem failedAttempts_countP_Run (ctx : Context) (key : String) (ttl : Duration)
    (errs : List GoError) :
    (failedAttempts ctx key ttl errs).countP (fun e => e == Event.Run) = 0 := by
  induction errs with
  | nil => rfl
  | cons e es ih => simp [failedAttempts, List.countP_cons, ih]

/-- The acquisition loop against a lock client that fails with `errs` and
then succeeds, given more rounds than failures: how it ends and what it
appends to the trace. -/
theorem Start_func1_rounds {σ L : Type} (Sprintf : String → String → String) (exits : Bool)
    (errs : List GoError) :
    ∀ (fuel : Nat) (w : World σ L),
      Locker.failsThenSucceeds w.c.config.locker (some w.c.config.WaitLockTime)
        (Sprintf w.c.config.WorkerLockDir w.c.name) w.c.config.LockTTL w.lockerState errs →
      errs.length < fuel →
      (Component.Start_func1 Sprintf exits fuel w).1 =
          (if w.c.Cron.running || exits then Outcome.returned () else Outcome.blocked) ∧
        (Component.Start_func1 Sprintf exits fuel w).2.trace = w.trace ++
          (failedAttempts (some w.c.config.WaitLockTime)
              (Sprintf w.c.config.WorkerLockDir w.c.name) w.c.config.LockTTL errs ++
            (Event.Lock (some w.c.config.WaitLockTime)
                (Sprintf w.c.config.WorkerLockDir w.c.name) w.c.config.LockTTL none ::
              Event.Info "add cron"
                [.int "number of scheduled jobs" w.c.Cron.Entries.length] ::
              Event.Run ::
              (if w.c.Cron.running || exits then [Event.RunReturn, Event.Go .Start_func1_1]
                else []))) := by
  induction errs with
  | nil =>
    intro fuel w hl hf
    obtain ⟨f, rfl⟩ : ∃ f, fuel = f + 1 := ⟨fuel - 1, by simp at hf; omega⟩
    simp only [Locker.failsThenSucceeds] at hl
    cases hrun : w.c.Cron.running <;> cases exits <;>
      simp [Component.Start_func1, hl, World.Run, World.emit, Cron.Run, Cron.Entries, hrun,
        failedAttempts]
  | cons e es ih =>
    intro fuel w hl hf
    obtain ⟨f, rfl⟩ : ∃ f, fuel = f + 1 := ⟨fuel - 1, by simp at hf; omega⟩
    simp only [Locker.failsThenSucceeds] at hl
    obtain ⟨h1, h2⟩ := hl
    have hf2 : es.length < f := by simp at hf; omega
    have step := ih f
      ((({ w with lockerState := (w.c.config.locker.Lock w.lockerState
            (some w.c.config.WaitLockTime) (Sprintf w.c.config.WorkerLockDir w.c.name)
            w.c.config.LockTTL).2 } : World σ L).emit
          (.Lock (some w.c.config.WaitLockTime) (Sprintf w.c.config.WorkerLockDir w.c.name)
            w.c.config.LockTTL (some e))).emit
        (.Info "mutex lock" [.string "err" e.Error])) h2 hf2
    simp only [World.emit] at step
    simp only [Component.Start_func1, h1, World.emit]
    refine ⟨step.1, ?_⟩
    rw [step.2]
    simp [failedAttempts]

/-- C4: in distributed mode `Start` launches the acquisition goroutine and
returns nil.  If the lock client fails the next `N` `Lock` calls (errors
`errs`, `N = errs.length`) and succeeds on the one after, the goroutine, given
more than `N` rounds, does not run out of rounds and appends exactly: for
each failure its `Lock` call and a "mutex lock" record with that error's
text; then the successful `Lock` call, the "add cron" record and the call of
the engine's loop.  So there are `N + 1` `Lock` calls, `N` "mutex lock"
records and one call of the engine's loop, placed after the last `Lock`. -/
theorem Start_acquisition {σ L : Type} (Sprintf : String → String → String) (exits : Bool)
    (w : World σ L) (errs : List GoError) (fuel : Nat)
    (hd : w.c.config.DistributedTask = true)
    (hl : Locker.failsThenSucceeds w.c.config.locker (some w.c.config.WaitLockTime)
      (Sprintf w.c.config.WorkerLockDir w.c.name) w.c.config.LockTTL w.lockerState errs)
    (hf : errs.length < fuel) :
    let ctx : Context := some w.c.config.WaitLockTime
    let key := Sprintf w.c.config.WorkerLockDir w.c.name
    let ttl := w.c.config.LockTTL
    let w0 := (Component.Start exits w).2
    let r := Component.Start_func1 Sprintf exits fuel w0
    let evs := w0.since r.2
    (Component.Start exits w).1 = Outcome.returned none ∧
      w.since w0 = [Event.Go .Start_func1] ∧
      r.1 = (if w.c.Cron.running || exits then Outcome.returned () else Outcome.blocked) ∧
      evs = failedAttempts ctx key ttl errs ++
        (Event.Lock ctx key ttl none ::
          Event.Info "add cron" [.int "number of scheduled jobs" w.c.Cron.Entries.length] ::
          Event.Run ::
          (if w.c.Cron.running || exits then [Event.RunReturn, Event.Go .Start_func1_1]
            else [])) ∧
      evs.countP Event.isLock = errs.length + 1 ∧
      evs.countP Event.isMutexLock = errs.length ∧
      evs.countP (fun e => e == Event.Run) = 1 := by
  intro ctx key ttl w0 r evs
  have hw0 : Component.Start exits w = (Outcome.returned none, w.emit (.Go .Start_func1)) := by
    simp [Component.Start, hd]
  have hw0' : w0 = w.emit (.Go .Start_func1) := by simp [w0, hw0]
  have hrounds := Start_func1_rounds Sprintf exits errs fuel w0
    (by rw [hw0']; exact hl) (by exact hf)
  have hevs : evs = _ := since_of_append w0 r.2 _ hrounds.2
  have hc : w0.c = w.c := by rw [hw0']; rfl
  rw [hc] at hevs hrounds
  refine ⟨by rw [hw0], ?_, hrounds.1, hevs, ?_, ?_, ?_⟩
  · apply since_of_append
    rw [hw0']
    rfl
  · rw [hevs]
    cases hre : (w.c.Cron.running || exits) <;>
      simp [List.countP_append, List.countP_cons, failedAttempts_countP_isLock, Event.isLock]
  · rw [hevs]
    cases hre : (w.c.Cron.running || exits) <;>
      simp [List.countP_append, List.countP_cons, failedAttempts_countP_isMutexLock,
        Event.isMutexLock]
  · rw [hevs]
    cases hre : (w.c.Cron.running || exits) <;>
      simp [List.countP_append, List.countP_cons, failedAttempts_countP_Run]

/-- C4, at a sample input: two failures, then success; the engine loop
never exits. -/
theorem Start_acquisition_witness :
    (sampleWorld true false 2 none).c.config.DistributedTask = true ∧
      ((Component.Start false (sampleWorld true false 2 none)).2.since
        (Component.Start_func1 sampleSprintf false 3
          (Component.Start false (sampleWorld true false 2 none)).2).2).countP
            Event.isLock = 3 :=
  ⟨rfl, (Start_acquisition sampleSprintf false (sampleWorld true false 2 none)
    [.errorString "lock is held", .errorString "lock is held"] 3 rfl ⟨rfl, rfl, rfl⟩
    (by decide)).2.2.2.2.1⟩

/-- C5 as stated fails: on a fresh non-distributed component whose engine
loop is never stopped, `Start` does not return; it stays inside the engine's
loop call, after the log record. -/
theorem Start_blocks_in_loop :
    (Component.Start false (sampleWorld false false 0 none)).1 = Outcome.blocked ∧
      (Component.Start false (sampleWorld false false 0 none)).1 ≠ Outcome.returned none ∧
      (Component.Start false (sampleWorld false false 0 none)).2.trace =
        [Event.Info "add cron" [.int "number of scheduled jobs" 0], Event.Run] := by
  refine ⟨rfl, ?_, rfl⟩
  intro h
  cases h

/-- C5, amended: outside distributed mode `Start` logs the entry count and
then calls the engine's loop in the caller's own goroutine (it launches
none): it returns, with a nil error, exactly when that call returns, which
is after the loop has exited (or at once if the engine was already
running), and stays blocked in the call as long as the loop runs. -/
theorem Start_local {σ L : Type} (exits : Bool) (w : World σ L)
    (hnd : w.c.config.DistributedTask = false) :
    (Component.Start exits w).1 =
        (if w.c.Cron.running || exits then Outcome.returned none else Outcome.blocked) ∧
      w.since (Component.Start exits w).2 =
        Event.Info "add cron" [.int "number of scheduled jobs" w.c.Cron.Entries.length] ::
          Event.Run :: (if w.c.Cron.running || exits then [Event.RunReturn] else []) := by
  constructor
  · cases hrun : w.c.Cron.running <;> cases exits <;>
      simp [Component.Start, hnd, World.Run, World.emit, Cron.Run, hrun]
  · apply since_of_append
    cases hrun : w.c.Cron.running <;> cases exits <;>
      simp [Component.Start, hnd, World.Run, World.emit, Cron.Run, Cron.Entries, hrun]

/-- C5 amended, at sample inputs: with a loop that exits `Start` returns
nil after the loop call has returned. -/
theorem Start_local_witness :
    (sampleWorld false false 0 none).c.config.DistributedTask = false ∧
      (Component.Start true (sampleWorld false false 0 none)).1 = Outcome.returned none ∧
      (sampleWorld false false 0 none).since
          (Component.Start true (sampleWorld false false 0 none)).2 =
        [Event.Info "add cron" [.int "number of scheduled jobs" 0], Event.Run,
          Event.RunReturn] :=
  have h := Start_local true (sampleWorld false false 0 none) rfl
  ⟨rfl, h.1, h.2⟩

/-- C6 fails on the code: on a fresh distributed component whose first
`Lock` call succeeds, the acquisition goroutine reaches the launch of the
renewal goroutine only after the engine's loop call has returned.  While the
loop runs (it never exits here) the goroutine is blocked in the call, the
renewal goroutine has not been launched and no `Refresh` has been issued;
when the loop does exit, the launch follows the return of the call. -/
theorem Start_renewal_after_loop :
    (Component.Start_func1 sampleSprintf false 1 (sampleWorld true false 0 none)).1 =
        Outcome.blocked ∧
      (Component.Start_func1 sampleSprintf false 1 (sampleWorld true false 0 none)).2.trace =
        [Event.Lock (some 4000000000) "/ecron/lock/report" 16000000000 none,
          Event.Info "add cron" [.int "number of scheduled jobs" 0],
          Event.Run] ∧
      (Component.Start_func1 sampleSprintf true 1 (sampleWorld true false 0 none)).2.trace =
        [Event.Lock (some 4000000000) "/ecron/lock/report" 16000000000 none,
          Event.Info "add cron" [.int "number of scheduled jobs" 0],
          Event.Run, Event.RunReturn, Event.Go .Start_func1_1] := by
  refine ⟨rfl, ?_, ?_⟩ <;> decide

/-- C7 fails on the code: on a fresh component, `AddJob` registers the job
"daily" under identifier 1, the engine holds that entry, and yet
`GetEntryByName("daily")` returns the zero entry: the name index was never
written, so the lookup asks the engine for identifier 0. -/
theorem GetEntryByName_after_AddJob :
    (Component.AddJob sampleNext sampleNow "@every 1s" sampleJob
            (sampleWorld false false 0 none)).1 = (1, none) ∧
      ((Component.AddJob sampleNext sampleNow "@every 1s" sampleJob
            (sampleWorld false false 0 none)).2.c.Cron.Entry
        1).ID = 1 ∧
      (Component.AddJob sampleNext sampleNow "@every 1s" sampleJob
            (sampleWorld false false 0 none)).2.c.entries =
        [] ∧
      Component.GetEntryByName sampleJob.Name
          (Component.AddJob sampleNext sampleNow "@every 1s" sampleJob
            (sampleWorld false false 0 none)).2 =
        Entry.zero Int ∧
      (Component.GetEntryByName sampleJob.Name
          (Component.AddJob sampleNext sampleNow "@every 1s" sampleJob
            (sampleWorld false false 0 none)).2).Valid =
        false := by
  refine ⟨?_, ?_, ?_, ?_, ?_⟩ <;> decide

/-- The acquisition loop only appends to the trace, and its calls to the
lock client all pass the path built from the pattern and the name. -/
theorem Start_func1_keys {σ L : Type} (Sprintf : String → String → String) (exits : Bool) :
    ∀ (fuel : Nat) (w : World σ L), ∃ evs,
      (Component.Start_func1 Sprintf exits fuel w).2.trace = w.trace ++ evs ∧
        keysAre (Sprintf w.c.config.WorkerLockDir w.c.name) evs := by
  intro fuel
  induction fuel with
  | zero =>
    intro w
    exact ⟨[], by simp [Component.Start_func1], by simp [keysAre]⟩
  | succ f ih =>
    intro w
    cases hr : (w.c.config.locker.Lock w.lockerState (some w.c.config.WaitLockTime)
        (Sprintf w.c.config.WorkerLockDir w.c.name) w.c.config.LockTTL).1 with
    | some err =>
      obtain ⟨evs, h1, h2⟩ := ih
        ((({ w with lockerState := (w.c.config.locker.Lock w.lockerState
              (some w.c.config.WaitLockTime) (Sprintf w.c.config.WorkerLockDir w.c.name)
              w.c.config.LockTTL).2 } : World σ L).emit
            (.Lock (some w.c.config.WaitLockTime) (Sprintf w.c.config.WorkerLockDir w.c.name)
              w.c.config.LockTTL (some err))).emit
          (.Info "mutex lock" [.string "err" err.Error]))
      simp only [World.emit] at h1 h2
      refine ⟨Event.Lock (some w.c.config.WaitLockTime)
        (Sprintf w.c.config.WorkerLockDir w.c.name) w.c.config.LockTTL (some err) ::
        Event.Info "mutex lock" [.string "err" err.Error] :: evs, ?_, ?_⟩
      · simp only [Component.Start_func1, hr, World.emit]
        rw [h1]
        simp
      · intro e he q hq
        rcases List.mem_cons.1 he with rfl | he
        · simp [Event.key?] at hq
          exact hq.symm
        · rcases List.mem_cons.1 he with rfl | he
          · simp [Event.key?] at hq
          · exact h2 e he q hq
    | none =>
      refine ⟨Event.Lock (some w.c.config.WaitLockTime)
        (Sprintf w.c.config.WorkerLockDir w.c.name) w.c.config.LockTTL none ::
        Event.Info "add cron" [.int "number of scheduled jobs" w.c.Cron.Entries.length] ::
        Event.Run ::
        (if w.c.Cron.running || exits then [Event.RunReturn, Event.Go .Start_func1_1]
          else []), ?_, ?_⟩
      · cases hrun : w.c.Cron.running <;> cases exits <;>
          simp [Component.Start_func1, hr, World.Run, World.emit, Cron.Run, Cron.Entries, hrun]
      · intro e he q hq
        rcases List.mem_cons.1 he with rfl | he
        · simp [Event.key?] at hq
          exact hq.symm
        · cases hre : (w.c.Cron.running || exits) <;> rw [hre] at he <;>
            simp at he <;> rcases he with rfl | rfl | rfl | rfl <;> simp [Event.key?] at hq

/-- The renewal loop only appends to the trace, and its calls to the lock
client all pass the path built from the pattern and the name. -/
theorem Start_func1_1_keys {σ L : Type} (Sprintf : String → String → String) :
    ∀ (n : Nat) (w : World σ L), ∃ evs,
      (Component.Start_func1_1 Sprintf n w).trace = w.trace ++ evs ∧
        keysAre (Sprintf w.c.config.WorkerLockDir w.c.name) evs := by
  intro n
  induction n with
  | zero =>
    intro w
    exact ⟨[], by simp [Component.Start_func1_1], by simp [keysAre]⟩
  | succ k ih =>
    intro w
    obtain ⟨evs, h1, h2⟩ := ih
      ((({ w with lockerState := (w.c.config.locker.Refresh w.lockerState none
            (Sprintf w.c.config.WorkerLockDir w.c.name) w.c.config.RefreshTTL).2 } :
            World σ L).emit
          (.Refresh none (Sprintf w.c.config.WorkerLockDir w.c.name) w.c.config.RefreshTTL
            (w.c.config.locker.Refresh w.lockerState none
              (Sprintf w.c.config.WorkerLockDir w.c.name) w.c.config.RefreshTTL).1)).emit
        (.Sleep w.c.config.RefreshTTL))
    simp only [World.emit] at h1 h2
    refine ⟨Event.Refresh none (Sprintf w.c.config.WorkerLockDir w.c.name)
      w.c.config.RefreshTTL (w.c.config.locker.Refresh w.lockerState none
        (Sprintf w.c.config.WorkerLockDir w.c.name) w.c.config.RefreshTTL).1 ::
      Event.Sleep w.c.config.RefreshTTL :: evs, ?_, ?_⟩
    · simp only [Component.Start_func1_1, World.emit]
      rw [h1]
      simp
    · intro e he q hq
      rcases List.mem_cons.1 he with rfl | he
      · simp [Event.key?] at hq
        exact hq.symm
      · rcases List.mem_cons.1 he with rfl | he
        · simp [Event.key?] at hq
        · exact h2 e he q hq

/-- The calls `Stop` makes to the lock client pass the path built from the
pattern and the name. -/
theorem Stop_keys {σ L : Type} (Sprintf : String → String → String) (w : World σ L) :
    keysAre (Sprintf w.c.config.WorkerLockDir w.c.name)
      (w.since (Component.Stop Sprintf w).2) := by
  rw [since_of_append w _ _ (Stop_appends Sprintf w)]
  intro e he q hq
  by_cases hd : w.c.config.DistributedTask = true
  · rw [if_pos hd] at he
    rcases List.mem_cons.1 he with rfl | he
    · simp [Event.key?] at hq
    · rcases List.mem_cons.1 he with rfl | he
      · simp [Event.key?] at hq
        exact hq.symm
      · cases hr : (w.c.config.locker.Unlock w.lockerState (some w.c.config.WaitUnlockTime)
          (Sprintf w.c.config.WorkerLockDir w.c.name)).1 <;> rw [hr] at he <;>
          simp at he
        subst he
        simp [Event.key?] at hq
  · rw [if_neg hd] at he
    simp at he
    subst he
    simp [Event.key?] at hq

/-- C8: every call to the lock client made by the acquisition loop of
`Start` (any number of rounds), by the renewal loop (any number of rounds)
and by `Stop` on a component passes the path `Sprintf(WorkerLockDir, name)`;
and that path is the one of any component with the same pattern and the
same name. -/
theorem lock_path {σ L σ1 L1 : Type} (Sprintf : String → String → String)
    (w : World σ L) (w1 : World σ1 L1)
    (hdir : w.c.config.WorkerLockDir = w1.c.config.WorkerLockDir)
    (hname : w.c.name = w1.c.name)
    (exits : Bool) (fuel n : Nat) (e : Event) (p : String)
    (he : e ∈ w.since (Component.Start_func1 Sprintf exits fuel w).2 ∨
      e ∈ w.since (Component.Start_func1_1 Sprintf n w) ∨
      e ∈ w.since (Component.Stop Sprintf w).2)
    (hp : e.key? = some p) :
    p = Sprintf w.c.config.WorkerLockDir w.c.name ∧
      p = Sprintf w1.c.config.WorkerLockDir w1.c.name := by
  have hmain : p = Sprintf w.c.config.WorkerLockDir w.c.name := by
    rcases he with he | he | he
    · obtain ⟨evs, h1, h2⟩ := Start_func1_keys Sprintf exits fuel w
      rw [since_of_append w _ evs h1] at he
      exact h2 e he p hp
    · obtain ⟨evs, h1, h2⟩ := Start_func1_1_keys Sprintf n w
      rw [since_of_append w _ evs h1] at he
      exact h2 e he p hp
    · exact Stop_keys Sprintf w e he p hp
  exact ⟨hmain, by rw [← hdir, ← hname]; exact hmain⟩

/-- C8, at a sample input: the release call of `Stop`. -/
theorem lock_path_witness :
    Event.Unlock (some 1000000000) "/ecron/lock/report" none ∈
        (sampleWorld true false 0 none).since
          (Component.Stop sampleSprintf (sampleWorld true false 0 none)).2 ∧
      "/ecron/lock/report" = sampleSprintf "/ecron/lock/%s" "report" :=
  ⟨by decide, (lock_path sampleSprintf (sampleWorld true false 0 none)
    (sampleWorld true true 3 none) rfl rfl false 0 0
    (Event.Unlock (some 1000000000) "/ecron/lock/report" none) "/ecron/lock/report"
    (Or.inr (Or.inr (by decide))) rfl).1⟩

end Ecron
